import Mathlib

/-!
# Verification of `mapstore.go` (package `smt`)

A shallow embedding of the key-value stores of `mapstore.go` and of the
conversion `NewSmtValueStore`, followed by the properties proved about them.

Modelling conventions.

* A Go `[]byte` is a `ByteSlice`: the nil slice or a finite sequence of bytes.
* A Go `string` is the sequence of its bytes (`GoString`).
* A Go `map[string][]byte` allocated by `make` is a finite map from `GoString`
  to `ByteSlice` (`Finmap`), so that two maps with the same entries are equal.
* A Go `error` is `Option GoError`, `none` being the nil error.
* Stores are mutated in place in Go; here every method takes the state of its
  receiver and returns its results together with the state after the call.
  A method that does not write to its receiver returns the state it was given.
-/

namespace Smt

/-- One byte. -/
abbrev Byte := Fin 256

/-- Go `string`: an immutable sequence of bytes. -/
abbrev GoString := List Byte

/-- Go `[]byte`: the nil slice, or a slice holding a sequence of bytes. -/
inductive ByteSlice where
  | nil : ByteSlice
  | bytes (data : List Byte) : ByteSlice
  deriving DecidableEq, Repr

/-- Go conversion `string(b)` of a byte slice: the bytes of the slice; the nil
slice converts to the empty string. -/
def ByteSlice.string : ByteSlice → GoString
  | .nil => []
  | .bytes data => data

/-- Go `len(b)` of a byte slice. -/
def ByteSlice.len : ByteSlice → Nat
  | .nil => 0
  | .bytes data => data.length

/-- `InvalidKeyError` is thrown when a key that does not exist is being accessed. -/
structure InvalidKeyError where
  Key : ByteSlice
  deriving DecidableEq, Repr

/-- The error values a store method returns: `&InvalidKeyError{Key: key}`, the
value of `fmt.Errorf(msg)` for a message without verbs, or an error value made
by a store implemented outside this file (given by its text). -/
inductive GoError where
  | invalidKey (e : InvalidKeyError) : GoError
  | errorf (msg : String) : GoError
  | external (msg : String) : GoError
  deriving DecidableEq, Repr

/-- Go `error`: `none` is the nil error. -/
abbrev error := Option GoError

/-- Go `map[string][]byte`, allocated. -/
abbrev GoMap := Finmap (fun _ : GoString => ByteSlice)

/-- `SimpleMap` is a simple in-memory map. Field `m` is the map that
`NewSimpleMap` and `NewSimpleSmtValueMap` allocate: the states of the model
are those of a store built by a constructor and changed by its methods
(`SimpleMap.reachable`), not the zero struct with a nil map. -/
structure SimpleMap where
  m : GoMap

/-- `NewSimpleMap` creates a new empty SimpleMap. -/
def NewSimpleMap : SimpleMap :=
  { m := ∅ }

/-- `Get` gets the value for a key. -/
def SimpleMap.Get (sm : SimpleMap) (key : ByteSlice) : (ByteSlice × error) × SimpleMap :=
  match sm.m.lookup key.string with
  | some value => ((value, none), sm)
  | none => ((ByteSlice.nil, some (GoError.invalidKey { Key := key })), sm)

/-- `Set` updates the value for a key. -/
def SimpleMap.Set (sm : SimpleMap) (key : ByteSlice) (value : ByteSlice) : error × SimpleMap :=
  (none, { sm with m := sm.m.insert key.string value })

/-- `Delete` deletes a key. -/
def SimpleMap.Delete (sm : SimpleMap) (key : ByteSlice) : error × SimpleMap :=
  match sm.m.lookup key.string with
  | some _ => (none, { sm with m := sm.m.erase key.string })
  | none => (some (GoError.invalidKey { Key := key }), sm)

/-- Methods of a type that implements `MapStore` and is declared outside this
file, over that type's own state `σ`. -/
structure ExternalMapStore (σ : Type) where
  Get : σ → ByteSlice → (ByteSlice × error) × σ
  Set : σ → ByteSlice → ByteSlice → error × σ
  Delete : σ → ByteSlice → error × σ

/-- The further methods by which a type declared outside this file implements
`SmtValueStore`, over that type's own state `σ`. -/
structure ExternalSmtValueStore (σ : Type) where
  Immutable : σ → Bool × σ
  GetForRoot : σ → ByteSlice → ByteSlice → (ByteSlice × error) × σ
  SetForRoot : σ → ByteSlice → ByteSlice → ByteSlice → error × σ

/-- `SimpleSmtValueStore` embeds `SimpleMap`. -/
structure SimpleSmtValueStore extends SimpleMap

/-- `NewSimpleSmtValueMap`: the zero struct with its map field set to a new map. -/
def NewSimpleSmtValueMap : SimpleSmtValueStore :=
  { m := ∅ }

/-- Method `Get` promoted from the embedded `SimpleMap`: `sm.SimpleMap.Get(key)`. -/
def SimpleSmtValueStore.Get (sm : SimpleSmtValueStore) (key : ByteSlice) :
    (ByteSlice × error) × SimpleSmtValueStore :=
  ((sm.toSimpleMap.Get key).1, { sm with toSimpleMap := (sm.toSimpleMap.Get key).2 })

/-- Method `Set` promoted from the embedded `SimpleMap`: `sm.SimpleMap.Set(key, value)`. -/
def SimpleSmtValueStore.Set (sm : SimpleSmtValueStore) (key : ByteSlice) (value : ByteSlice) :
    error × SimpleSmtValueStore :=
  ((sm.toSimpleMap.Set key value).1, { sm with toSimpleMap := (sm.toSimpleMap.Set key value).2 })

/-- Method `Delete` promoted from the embedded `SimpleMap`: `sm.SimpleMap.Delete(key)`. -/
def SimpleSmtValueStore.Delete (sm : SimpleSmtValueStore) (key : ByteSlice) :
    error × SimpleSmtValueStore :=
  ((sm.toSimpleMap.Delete key).1, { sm with toSimpleMap := (sm.toSimpleMap.Delete key).2 })

/-- `Immutable` of `SimpleSmtValueStore`: `return false`. -/
def SimpleSmtValueStore.Immutable (sm : SimpleSmtValueStore) : Bool × SimpleSmtValueStore :=
  (false, sm)

/-- `GetForRoot` of `SimpleSmtValueStore`: `return nil, fmt.Errorf(...)`. -/
def SimpleSmtValueStore.GetForRoot (sm : SimpleSmtValueStore) (_key : ByteSlice)
    (_smtRoot : ByteSlice) : (ByteSlice × error) × SimpleSmtValueStore :=
  ((ByteSlice.nil, some (GoError.errorf "not implemented GetForRoot")), sm)

/-- `SetForRoot` of `SimpleSmtValueStore`: `return fmt.Errorf(...)`. -/
def SimpleSmtValueStore.SetForRoot (sm : SimpleSmtValueStore) (_key : ByteSlice)
    (_smtRoot : ByteSlice) (_value : ByteSlice) : error × SimpleSmtValueStore :=
  (some (GoError.errorf "not implemented SetForRoot"), sm)

mutual
/-- `MapStore` is a key-value store: a value of the interface type, that is, a
store of one of the types of this file that have the three methods, or of a
type declared elsewhere; `smt` of the latter holds its `SmtValueStore`
methods when it has them. -/
inductive MapStore : Type 1 where
  | simpleMap (sm : SimpleMap) : MapStore
  | wrapper (sm : MapStoreSmtValueStoreWrapper) : MapStore
  | simpleSmtValueStore (sm : SimpleSmtValueStore) : MapStore
  | other (σ : Type) (state : σ) (methods : ExternalMapStore σ)
      (smt : Option (ExternalSmtValueStore σ)) : MapStore
/-- `MapStoreSmtValueStoreWrapper` holds the `MapStore` it wraps. -/
inductive MapStoreSmtValueStoreWrapper : Type 1 where
  | mk (mapStore : MapStore) : MapStoreSmtValueStoreWrapper
end

/-- Field `mapStore` of the wrapper. -/
def MapStoreSmtValueStoreWrapper.mapStore : MapStoreSmtValueStoreWrapper → MapStore
  | .mk mapStore => mapStore

mutual
/-- Interface call `mapStore.Get(key)`: the `Get` of the store's own type. -/
def MapStore.Get : MapStore → ByteSlice → (ByteSlice × error) × MapStore
  | .simpleMap sm, key => ((sm.Get key).1, .simpleMap (sm.Get key).2)
  | .wrapper sm, key => ((sm.Get key).1, .wrapper (sm.Get key).2)
  | .simpleSmtValueStore sm, key => ((sm.Get key).1, .simpleSmtValueStore (sm.Get key).2)
  | .other σ state methods smt, key =>
      ((methods.Get state key).1, .other σ (methods.Get state key).2 methods smt)
/-- `Get` of the wrapper: `return sm.mapStore.Get(key)`. -/
def MapStoreSmtValueStoreWrapper.Get :
    MapStoreSmtValueStoreWrapper → ByteSlice → (ByteSlice × error) × MapStoreSmtValueStoreWrapper
  | .mk mapStore, key => ((mapStore.Get key).1, .mk (mapStore.Get key).2)
end

mutual
/-- Interface call `mapStore.Set(key, value)`: the `Set` of the store's own type. -/
def MapStore.Set : MapStore → ByteSlice → ByteSlice → error × MapStore
  | .simpleMap sm, key, value => ((sm.Set key value).1, .simpleMap (sm.Set key value).2)
  | .wrapper sm, key, value => ((sm.Set key value).1, .wrapper (sm.Set key value).2)
  | .simpleSmtValueStore sm, key, value =>
      ((sm.Set key value).1, .simpleSmtValueStore (sm.Set key value).2)
  | .other σ state methods smt, key, value =>
      ((methods.Set state key value).1, .other σ (methods.Set state key value).2 methods smt)
/-- `Set` of the wrapper updates the value for a key: `return sm.mapStore.Set(key, value)`. -/
def MapStoreSmtValueStoreWrapper.Set :
    MapStoreSmtValueStoreWrapper → ByteSlice → ByteSlice → error × MapStoreSmtValueStoreWrapper
  | .mk mapStore, key, value => ((mapStore.Set key value).1, .mk (mapStore.Set key value).2)
end

mutual
/-- Interface call `mapStore.Delete(key)`: the `Delete` of the store's own type. -/
def MapStore.Delete : MapStore → ByteSlice → error × MapStore
  | .simpleMap sm, key => ((sm.Delete key).1, .simpleMap (sm.Delete key).2)
  | .wrapper sm, key => ((sm.Delete key).1, .wrapper (sm.Delete key).2)
  | .simpleSmtValueStore sm, key => ((sm.Delete key).1, .simpleSmtValueStore (sm.Delete key).2)
  | .other σ state methods smt, key =>
      ((methods.Delete state key).1, .other σ (methods.Delete state key).2 methods smt)
/-- `Delete` of the wrapper deletes a key: `return sm.mapStore.Delete(key)`. -/
def MapStoreSmtValueStoreWrapper.Delete :
    MapStoreSmtValueStoreWrapper → ByteSlice → error × MapStoreSmtValueStoreWrapper
  | .mk mapStore, key => ((mapStore.Delete key).1, .mk (mapStore.Delete key).2)
end

/-- `Immutable` of the wrapper: `return false`. -/
def MapStoreSmtValueStoreWrapper.Immutable (sm : MapStoreSmtValueStoreWrapper) :
    Bool × MapStoreSmtValueStoreWrapper :=
  (false, sm)

/-- `GetForRoot` of the wrapper: `return nil, fmt.Errorf(...)`. -/
def MapStoreSmtValueStoreWrapper.GetForRoot (sm : MapStoreSmtValueStoreWrapper)
    (_key : ByteSlice) (_smtRoot : ByteSlice) :
    (ByteSlice × error) × MapStoreSmtValueStoreWrapper :=
  ((ByteSlice.nil, some (GoError.errorf "not implemented GetForRoot")), sm)

/-- `SetForRoot` of the wrapper: `return fmt.Errorf(...)`. -/
def MapStoreSmtValueStoreWrapper.SetForRoot (sm : MapStoreSmtValueStoreWrapper)
    (_key : ByteSlice) (_smtRoot : ByteSlice) (_value : ByteSlice) :
    error × MapStoreSmtValueStoreWrapper :=
  (some (GoError.errorf "not implemented SetForRoot"), sm)

/-- Whether the type of a store has the methods of the interface `SmtValueStore`
(`MapStore`, `Immutable`, `GetForRoot`, `SetForRoot`): of the types of this
file, `*MapStoreSmtValueStoreWrapper` and `*SimpleSmtValueStore` do and
`*SimpleMap` does not. -/
def MapStore.implementsSmtValueStore : MapStore → Bool
  | .simpleMap _ => false
  | .wrapper _ => true
  | .simpleSmtValueStore _ => true
  | .other _ _ _ smt => smt.isSome

/-- Interface `SmtValueStore`: a store whose type has all its methods. -/
def SmtValueStore : Type 1 :=
  { s : MapStore // s.implementsSmtValueStore = true }

/-- The store held by a value of the interface `SmtValueStore`. -/
def SmtValueStore.store (s : SmtValueStore) : MapStore :=
  s.1

/-- Type assertion `mapStore.(SmtValueStore)` in its two-result form: the store
itself and `true` when its type implements `SmtValueStore`, else no store
(the zero value of the interface) and `false`. -/
def MapStore.assertSmtValueStore (mapStore : MapStore) : Option SmtValueStore × Bool :=
  if h : mapStore.implementsSmtValueStore = true then (some ⟨mapStore, h⟩, true)
  else (none, false)

/-- `NewSmtValueStore`: the store itself when the type assertion succeeds, else
a new wrapper holding it. -/
def NewSmtValueStore (mapStore : MapStore) : SmtValueStore :=
  match mapStore.assertSmtValueStore with
  | (some svm, true) => svm
  | _ => ⟨.wrapper (.mk mapStore), rfl⟩

/-- Interface call `store.Immutable()` on a value of `SmtValueStore`: the
`Immutable` of the store's own type. -/
def SmtValueStore.Immutable : SmtValueStore → Bool × SmtValueStore
  | ⟨.wrapper sm, _⟩ => (sm.Immutable.1, ⟨.wrapper sm.Immutable.2, rfl⟩)
  | ⟨.simpleSmtValueStore sm, _⟩ => (sm.Immutable.1, ⟨.simpleSmtValueStore sm.Immutable.2, rfl⟩)
  | ⟨.other σ state methods (some smt), _⟩ =>
      ((smt.Immutable state).1, ⟨.other σ (smt.Immutable state).2 methods (some smt), rfl⟩)

/-- Interface call `store.GetForRoot(key, smtRoot)` on a value of
`SmtValueStore`: the `GetForRoot` of the store's own type. -/
def SmtValueStore.GetForRoot :
    SmtValueStore → ByteSlice → ByteSlice → (ByteSlice × error) × SmtValueStore
  | ⟨.wrapper sm, _⟩, key, smtRoot =>
      ((sm.GetForRoot key smtRoot).1, ⟨.wrapper (sm.GetForRoot key smtRoot).2, rfl⟩)
  | ⟨.simpleSmtValueStore sm, _⟩, key, smtRoot =>
      ((sm.GetForRoot key smtRoot).1, ⟨.simpleSmtValueStore (sm.GetForRoot key smtRoot).2, rfl⟩)
  | ⟨.other σ state methods (some smt), _⟩, key, smtRoot =>
      ((smt.GetForRoot state key smtRoot).1,
        ⟨.other σ (smt.GetForRoot state key smtRoot).2 methods (some smt), rfl⟩)

/-- Interface call `store.SetForRoot(key, smtRoot, value)` on a value of
`SmtValueStore`: the `SetForRoot` of the store's own type. -/
def SmtValueStore.SetForRoot :
    SmtValueStore → ByteSlice → ByteSlice → ByteSlice → error × SmtValueStore
  | ⟨.wrapper sm, _⟩, key, smtRoot, value =>
      ((sm.SetForRoot key smtRoot value).1, ⟨.wrapper (sm.SetForRoot key smtRoot value).2, rfl⟩)
  | ⟨.simpleSmtValueStore sm, _⟩, key, smtRoot, value =>
      ((sm.SetForRoot key smtRoot value).1,
        ⟨.simpleSmtValueStore (sm.SetForRoot key smtRoot value).2, rfl⟩)
  | ⟨.other σ state methods (some smt), _⟩, key, smtRoot, value =>
      ((smt.SetForRoot state key smtRoot value).1,
        ⟨.other σ (smt.SetForRoot state key smtRoot value).2 methods (some smt), rfl⟩)

/-! ## Basic facts about the embedding -/

/-- `Get` on a key whose string is mapped returns the mapped value and no error. -/
theorem SimpleMap.Get_of_lookup_some (sm : SimpleMap) (key value : ByteSlice)
    (h : sm.m.lookup key.string = some value) : sm.Get key = ((value, none), sm) := by
  simp [SimpleMap.Get, h]

/-- `Get` on a key whose string is not mapped returns nil and `InvalidKeyError`. -/
theorem SimpleMap.Get_of_lookup_none (sm : SimpleMap) (key : ByteSlice)
    (h : sm.m.lookup key.string = none) :
    sm.Get key = ((ByteSlice.nil, some (GoError.invalidKey { Key := key })), sm) := by
  simp [SimpleMap.Get, h]

/-- `Delete` on a key whose string is mapped erases the entry and returns no error. -/
theorem SimpleMap.Delete_of_lookup_some (sm : SimpleMap) (key value : ByteSlice)
    (h : sm.m.lookup key.string = some value) :
    sm.Delete key = (none, { m := sm.m.erase key.string }) := by
  simp [SimpleMap.Delete, h]

/-- `Delete` on a key whose string is not mapped returns `InvalidKeyError` and
leaves the store as it was. -/
theorem SimpleMap.Delete_of_lookup_none (sm : SimpleMap) (key : ByteSlice)
    (h : sm.m.lookup key.string = none) :
    sm.Delete key = (some (GoError.invalidKey { Key := key }), sm) := by
  simp [SimpleMap.Delete, h]

/-- The map of a store after `Set`. -/
theorem SimpleMap.Set_m (sm : SimpleMap) (key value : ByteSlice) :
    (sm.Set key value).2.m = sm.m.insert key.string value := rfl

/-- Every state of the model is reached from `NewSimpleMap` by a sequence of
`Set` calls: the model has no state that the constructor and the methods
cannot produce. -/
theorem SimpleMap.reachable (sm : SimpleMap) :
    ∃ writes : List (ByteSlice × ByteSlice),
      writes.foldr (fun kv acc => (acc.Set kv.1 kv.2).2) NewSimpleMap = sm := by
  obtain ⟨m⟩ := sm
  induction m using Finmap.induction_on with
  | H a =>
    obtain ⟨entries, nd⟩ := a
    induction entries with
    | nil => exact ⟨[], rfl⟩
    | cons e es ih =>
      have hnd : es.NodupKeys := (List.nodupKeys_cons.mp nd).2
      have hne : e.1 ∉ es.keys := (List.nodupKeys_cons.mp nd).1
      obtain ⟨ws, hws⟩ := ih hnd
      refine ⟨(ByteSlice.bytes e.1, e.2) :: ws, ?_⟩
      rw [List.foldr_cons, hws]
      show SimpleMap.mk (Finmap.insert e.1 e.2 (AList.toFinmap ⟨es, hnd⟩)) = _
      congr 1
      have hins : Finmap.insert e.1 e.2 (AList.toFinmap (⟨es, hnd⟩ : AList fun _ => ByteSlice))
          = AList.toFinmap (AList.insert e.1 e.2 ⟨es, hnd⟩) := Finmap.insert_toFinmap _ _ _
      rw [hins]
      congr 1
      apply AList.ext
      simp only [AList.insert_entries]
      rw [List.kerase_of_not_mem_keys hne]

/-! ## SimpleMap: Get, Set, Delete -/

/-- C1. For every `SimpleMap` state, key `k` and value `v`: `Set(k, v)` returns
no error, and `Get(k)` called next returns exactly `v` and no error. -/
theorem C1_set_then_get (s : SimpleMap) (k v : ByteSlice) :
    (s.Set k v).1 = none ∧ ((s.Set k v).2.Get k).1 = (v, none) := by
  constructor
  · rfl
  · simp [SimpleMap.Get, SimpleMap.Set]

/-- The scenario of the specification: on a new store, `Set("a", "1")` then
`Get("a")` returns `("1", nil)`. -/
theorem scenario_set_get :
    ((NewSimpleMap.Set (ByteSlice.bytes [97]) (ByteSlice.bytes [49])).2.Get
      (ByteSlice.bytes [97])).1 = (ByteSlice.bytes [49], none) := by
  simp [SimpleMap.Get, SimpleMap.Set]

/-- C2. For every `SimpleMap` state `s` and key `k`: `Get(k)` returns an error
exactly when the string of `k` has no entry in the map of `s`; when it returns
an error, the results are the nil slice and `InvalidKeyError` with `Key` equal
to `k`; and on the store built by `NewSimpleMap`, `Get(k)` returns nil and
`InvalidKeyError{Key: k}` for every key `k`. -/
theorem C2_get_fails_iff_absent (s : SimpleMap) (k : ByteSlice) :
    ((s.Get k).1.2 ≠ none ↔ k.string ∉ s.m) ∧
    ((s.Get k).1.2 ≠ none →
      (s.Get k).1 = (ByteSlice.nil, some (GoError.invalidKey { Key := k }))) ∧
    (NewSimpleMap.Get k).1 = (ByteSlice.nil, some (GoError.invalidKey { Key := k })) := by
  refine ⟨?_, ?_, ?_⟩
  · rw [← Finmap.lookup_eq_none]
    cases h : s.m.lookup k.string with
    | none => simp [SimpleMap.Get, h]
    | some value => simp [SimpleMap.Get, h]
  · cases h : s.m.lookup k.string with
    | none => simp [SimpleMap.Get, h]
    | some value => simp [SimpleMap.Get, h]
  · simp [SimpleMap.Get, NewSimpleMap]

/-- Witness of C2 on the store holding only "a": `Get("b")` returns an error,
"b" has no entry, and the results are nil and `InvalidKeyError{Key: "b"}`. -/
theorem C2_get_fails_iff_absent_witness :
    (ByteSlice.bytes [98]).string
        ∉ (NewSimpleMap.Set (ByteSlice.bytes [97]) (ByteSlice.bytes [49])).2.m ∧
    ((NewSimpleMap.Set (ByteSlice.bytes [97]) (ByteSlice.bytes [49])).2.Get
        (ByteSlice.bytes [98])).1
      = (ByteSlice.nil, some (GoError.invalidKey { Key := ByteSlice.bytes [98] })) :=
  have habsent : (ByteSlice.bytes [98]).string
      ∉ (NewSimpleMap.Set (ByteSlice.bytes [97]) (ByteSlice.bytes [49])).2.m := by
    simp [SimpleMap.Set, NewSimpleMap, ByteSlice.string, Finmap.not_mem_empty]
  have hclaim := C2_get_fails_iff_absent
    (NewSimpleMap.Set (ByteSlice.bytes [97]) (ByteSlice.bytes [49])).2 (ByteSlice.bytes [98])
  ⟨habsent, hclaim.2.1 (hclaim.1.mpr habsent)⟩

/-- C3. For every `SimpleMap` state `s` and key `k`: `Delete(k)` returns an
error exactly when the string of `k` has no entry in the map of `s`; when it
returns an error, the error is `InvalidKeyError` with `Key` equal to `k`; on
the store built by `NewSimpleMap`, `Delete(k)` returns `InvalidKeyError{Key: k}`
for every key; and after a `Delete(k)` that returned no error, a second
`Delete(k)` returns `InvalidKeyError{Key: k}`. -/
theorem C3_delete_fails_iff_absent (s : SimpleMap) (k : ByteSlice) :
    ((s.Delete k).1 ≠ none ↔ k.string ∉ s.m) ∧
    ((s.Delete k).1 ≠ none → (s.Delete k).1 = some (GoError.invalidKey { Key := k })) ∧
    (NewSimpleMap.Delete k).1 = some (GoError.invalidKey { Key := k }) ∧
    ((s.Delete k).1 = none →
      ((s.Delete k).2.Delete k).1 = some (GoError.invalidKey { Key := k })) := by
  refine ⟨?_, ?_, ?_, ?_⟩
  · rw [← Finmap.lookup_eq_none]
    cases h : s.m.lookup k.string with
    | none => simp [SimpleMap.Delete, h]
    | some value => simp [SimpleMap.Delete, h]
  · cases h : s.m.lookup k.string with
    | none => simp [SimpleMap.Delete, h]
    | some value => simp [SimpleMap.Delete, h]
  · simp [SimpleMap.Delete, NewSimpleMap]
  · cases h : s.m.lookup k.string with
    | none => simp [SimpleMap.Delete, h]
    | some value => simp [SimpleMap.Delete, h]

/-- Witness of C3 on the store holding only "a": `Delete("a")` returns no
error and a second `Delete("a")` returns `InvalidKeyError{Key: "a"}`. -/
theorem C3_delete_fails_iff_absent_witness :
    ((NewSimpleMap.Set (ByteSlice.bytes [97]) (ByteSlice.bytes [49])).2.Delete
        (ByteSlice.bytes [97])).1 = none ∧
    (((NewSimpleMap.Set (ByteSlice.bytes [97]) (ByteSlice.bytes [49])).2.Delete
        (ByteSlice.bytes [97])).2.Delete (ByteSlice.bytes [97])).1
      = some (GoError.invalidKey { Key := ByteSlice.bytes [97] }) :=
  have hok : ((NewSimpleMap.Set (ByteSlice.bytes [97]) (ByteSlice.bytes [49])).2.Delete
      (ByteSlice.bytes [97])).1 = none := by
    simp [SimpleMap.Delete, SimpleMap.Set, NewSimpleMap, ByteSlice.string]
  ⟨hok, (C3_delete_fails_iff_absent
    (NewSimpleMap.Set (ByteSlice.bytes [97]) (ByteSlice.bytes [49])).2
    (ByteSlice.bytes [97])).2.2.2 hok⟩

/-- C4. For every `SimpleMap` state, key `k` and value `v`: after `Set(k, v)`,
`Delete(k)` returns no error, the string of `k` then has no entry in the map,
and `Get(k)` called next returns the nil slice and `InvalidKeyError{Key: k}`. -/
theorem C4_set_delete_get (s : SimpleMap) (k v : ByteSlice) :
    ((s.Set k v).2.Delete k).1 = none ∧
    k.string ∉ ((s.Set k v).2.Delete k).2.m ∧
    (((s.Set k v).2.Delete k).2.Get k).1
      = (ByteSlice.nil, some (GoError.invalidKey { Key := k })) := by
  have hd : (s.Set k v).2.Delete k = (none, { m := (s.m.insert k.string v).erase k.string }) :=
    SimpleMap.Delete_of_lookup_some _ k v (by simp [SimpleMap.Set])
  rw [hd]
  refine ⟨rfl, ?_, ?_⟩
  · simp
  · simp [SimpleMap.Get]

/-- The scenario of the specification: on a new store, after `Set("a", "1")`,
`Delete("a")` then `Get("a")` returns `(nil, InvalidKeyError{Key: "a"})`. -/
theorem scenario_delete_get :
    (((NewSimpleMap.Set (ByteSlice.bytes [97]) (ByteSlice.bytes [49])).2.Delete
      (ByteSlice.bytes [97])).2.Get (ByteSlice.bytes [97])).1
      = (ByteSlice.nil, some (GoError.invalidKey { Key := ByteSlice.bytes [97] })) := by
  simp [SimpleMap.Get, SimpleMap.Set, SimpleMap.Delete]

/-- C5. For every `SimpleMap` state, key `k` and values `v1`, `v2`: after
`Set(k, v1)` and `Set(k, v2)`, `Get(k)` returns `v2` and no error, and the
state of the store is the state after `Set(k, v2)` alone. -/
theorem C5_overwrite (s : SimpleMap) (k v1 v2 : ByteSlice) :
    (((s.Set k v1).2.Set k v2).2.Get k).1 = (v2, none) ∧
    ((s.Set k v1).2.Set k v2).2 = (s.Set k v2).2 := by
  constructor
  · simp [SimpleMap.Get, SimpleMap.Set]
  · simp [SimpleMap.Set, Finmap.insert_insert]

/-! ## NewSmtValueStore and the wrapper -/

/-- `NewSmtValueStore` on a store whose type implements `SmtValueStore`. -/
theorem NewSmtValueStore_of_implements (store : MapStore)
    (h : store.implementsSmtValueStore = true) : NewSmtValueStore store = ⟨store, h⟩ := by
  simp [NewSmtValueStore, MapStore.assertSmtValueStore, h]

/-- `NewSmtValueStore` on a store whose type does not implement `SmtValueStore`. -/
theorem NewSmtValueStore_of_not_implements (m : MapStore)
    (h : m.implementsSmtValueStore = false) :
    NewSmtValueStore m = ⟨MapStore.wrapper (MapStoreSmtValueStoreWrapper.mk m), rfl⟩ := by
  simp [NewSmtValueStore, MapStore.assertSmtValueStore, h]

/-- C6. For every store whose type already implements `SmtValueStore`,
`NewSmtValueStore` returns that store and not a wrapper holding it, so
`GetForRoot` and `SetForRoot` on the result are those of the store; this
holds in particular for every `SimpleSmtValueStore` and for every
`MapStoreSmtValueStoreWrapper`. -/
theorem C6_new_returns_store_itself (store : MapStore)
    (h : store.implementsSmtValueStore = true) :
    (NewSmtValueStore store).store = store ∧
    (NewSmtValueStore store).store ≠ MapStore.wrapper (MapStoreSmtValueStoreWrapper.mk store) ∧
    (∀ key smtRoot : ByteSlice,
      (NewSmtValueStore store).GetForRoot key smtRoot
        = SmtValueStore.GetForRoot ⟨store, h⟩ key smtRoot) ∧
    (∀ key smtRoot value : ByteSlice,
      (NewSmtValueStore store).SetForRoot key smtRoot value
        = SmtValueStore.SetForRoot ⟨store, h⟩ key smtRoot value) ∧
    (∀ sm : SimpleSmtValueStore,
      (NewSmtValueStore (MapStore.simpleSmtValueStore sm)).store
        = MapStore.simpleSmtValueStore sm) ∧
    (∀ sm : MapStoreSmtValueStoreWrapper,
      (NewSmtValueStore (MapStore.wrapper sm)).store = MapStore.wrapper sm) := by
  have hnew := NewSmtValueStore_of_implements store h
  refine ⟨?_, ?_, ?_, ?_, ?_, ?_⟩
  · rw [hnew]; rfl
  · rw [hnew]
    intro heq
    have hsz := congrArg sizeOf heq
    simp only [SmtValueStore.store, MapStore.wrapper.sizeOf_spec,
      MapStoreSmtValueStoreWrapper.mk.sizeOf_spec] at hsz
    omega
  · intro key smtRoot; rw [hnew]
  · intro key smtRoot value; rw [hnew]
  · intro sm; rw [NewSmtValueStore_of_implements (MapStore.simpleSmtValueStore sm) rfl]; rfl
  · intro sm; rw [NewSmtValueStore_of_implements (MapStore.wrapper sm) rfl]; rfl

/-- Witness of C6 at the store built by `NewSimpleSmtValueMap`. -/
theorem C6_new_returns_store_itself_witness :
    (MapStore.simpleSmtValueStore NewSimpleSmtValueMap).implementsSmtValueStore = true ∧
    (NewSmtValueStore (MapStore.simpleSmtValueStore NewSimpleSmtValueMap)).store
      = MapStore.simpleSmtValueStore NewSimpleSmtValueMap :=
  ⟨rfl, (C6_new_returns_store_itself (MapStore.simpleSmtValueStore NewSimpleSmtValueMap) rfl).1⟩

/-- C7. For every store whose type does not implement `SmtValueStore`, the
result of `NewSmtValueStore` is a `MapStoreSmtValueStoreWrapper` holding it,
and for every key, root and value `GetForRoot` on the result returns the nil
slice and the error "not implemented GetForRoot" and `SetForRoot` returns the
error "not implemented SetForRoot"; every `SimpleMap` is such a store. -/
theorem C7_new_wraps_plain_store (m : MapStore) (h : m.implementsSmtValueStore = false)
    (key smtRoot value : ByteSlice) :
    (NewSmtValueStore m).store = MapStore.wrapper (MapStoreSmtValueStoreWrapper.mk m) ∧
    ((NewSmtValueStore m).GetForRoot key smtRoot).1
      = (ByteSlice.nil, some (GoError.errorf "not implemented GetForRoot")) ∧
    ((NewSmtValueStore m).SetForRoot key smtRoot value).1
      = some (GoError.errorf "not implemented SetForRoot") ∧
    (∀ sm : SimpleMap,
      (NewSmtValueStore (MapStore.simpleMap sm)).store
        = MapStore.wrapper (MapStoreSmtValueStoreWrapper.mk (MapStore.simpleMap sm))) := by
  rw [NewSmtValueStore_of_not_implements m h]
  refine ⟨rfl, rfl, rfl, ?_⟩
  intro sm
  rw [NewSmtValueStore_of_not_implements (MapStore.simpleMap sm) rfl]
  rfl

/-- Witness of C7 at a `SimpleMap` in which the key "a" is set, asked for "a". -/
theorem C7_new_wraps_plain_store_witness :
    (MapStore.simpleMap
        (NewSimpleMap.Set (ByteSlice.bytes [97]) (ByteSlice.bytes [49])).2).implementsSmtValueStore
      = false ∧
    ((NewSmtValueStore (MapStore.simpleMap
        (NewSimpleMap.Set (ByteSlice.bytes [97]) (ByteSlice.bytes [49])).2)).GetForRoot
        (ByteSlice.bytes [97]) (ByteSlice.bytes [114])).1
      = (ByteSlice.nil, some (GoError.errorf "not implemented GetForRoot")) :=
  ⟨rfl, (C7_new_wraps_plain_store
    (MapStore.simpleMap (NewSimpleMap.Set (ByteSlice.bytes [97]) (ByteSlice.bytes [49])).2) rfl
    (ByteSlice.bytes [97]) (ByteSlice.bytes [114]) ByteSlice.nil).2.1⟩

/-- The wrapper that `NewSmtValueStore` makes of a `SimpleMap`. -/
theorem NewSmtValueStore_simpleMap (s : SimpleMap) :
    (NewSmtValueStore (MapStore.simpleMap s)).store
      = MapStore.wrapper (MapStoreSmtValueStoreWrapper.mk (MapStore.simpleMap s)) := by
  rw [NewSmtValueStore_of_not_implements (MapStore.simpleMap s) rfl]
  rfl

/-- C8. For every wrapped store `m`, key and value: `Get`, `Set` and `Delete`
of `MapStoreSmtValueStoreWrapper{m}` return the results of the same call on
`m` and leave in the wrapper the state that the call leaves `m` in, also when
the wrapper is called through the interface; and for `m` a `SimpleMap`, the
wrapper made by `NewSmtValueStore` returns `v` on `Get(k)` after `Set(k, v)`,
returns `v2` after `Set(k, v1)` and `Set(k, v2)`, which leave the state of
`Set(k, v2)` alone, and after `Set(k, v)` and a `Delete(k)` that returns no
error, `Get(k)` returns nil and `InvalidKeyError{Key: k}`. -/
theorem C8_wrapper_passes_through (m : MapStore) (key value : ByteSlice) :
    (((MapStoreSmtValueStoreWrapper.mk m).Get key).1 = (m.Get key).1 ∧
      ((MapStoreSmtValueStoreWrapper.mk m).Get key).2.mapStore = (m.Get key).2) ∧
    (((MapStoreSmtValueStoreWrapper.mk m).Set key value).1 = (m.Set key value).1 ∧
      ((MapStoreSmtValueStoreWrapper.mk m).Set key value).2.mapStore = (m.Set key value).2) ∧
    (((MapStoreSmtValueStoreWrapper.mk m).Delete key).1 = (m.Delete key).1 ∧
      ((MapStoreSmtValueStoreWrapper.mk m).Delete key).2.mapStore = (m.Delete key).2) ∧
    ((MapStore.wrapper (MapStoreSmtValueStoreWrapper.mk m)).Get key
        = ((m.Get key).1, MapStore.wrapper (MapStoreSmtValueStoreWrapper.mk (m.Get key).2)) ∧
      (MapStore.wrapper (MapStoreSmtValueStoreWrapper.mk m)).Set key value
        = ((m.Set key value).1,
            MapStore.wrapper (MapStoreSmtValueStoreWrapper.mk (m.Set key value).2)) ∧
      (MapStore.wrapper (MapStoreSmtValueStoreWrapper.mk m)).Delete key
        = ((m.Delete key).1,
            MapStore.wrapper (MapStoreSmtValueStoreWrapper.mk (m.Delete key).2))) ∧
    (∀ (s : SimpleMap) (k v v1 v2 : ByteSlice),
      (((NewSmtValueStore (MapStore.simpleMap s)).store.Set k v).2.Get k).1 = (v, none) ∧
      ((((NewSmtValueStore (MapStore.simpleMap s)).store.Set k v1).2.Set k v2).2.Get k).1
        = (v2, none) ∧
      (((NewSmtValueStore (MapStore.simpleMap s)).store.Set k v1).2.Set k v2).2
        = ((NewSmtValueStore (MapStore.simpleMap s)).store.Set k v2).2 ∧
      (((NewSmtValueStore (MapStore.simpleMap s)).store.Set k v).2.Delete k).1 = none ∧
      ((((NewSmtValueStore (MapStore.simpleMap s)).store.Set k v).2.Delete k).2.Get k).1
        = (ByteSlice.nil, some (GoError.invalidKey { Key := k }))) := by
  refine ⟨⟨rfl, rfl⟩, ⟨rfl, rfl⟩, ⟨rfl, rfl⟩, ⟨rfl, rfl, rfl⟩, ?_⟩
  intro s k v v1 v2
  rw [NewSmtValueStore_simpleMap]
  have hd : (s.Set k v).2.Delete k = (none, { m := (s.m.insert k.string v).erase k.string }) :=
    SimpleMap.Delete_of_lookup_some _ k v (by simp [SimpleMap.Set])
  refine ⟨?_, ?_, ?_, ?_, ?_⟩
  · simp [MapStore.Get, MapStore.Set, MapStoreSmtValueStoreWrapper.Get,
      MapStoreSmtValueStoreWrapper.Set, SimpleMap.Get, SimpleMap.Set]
  · simp [MapStore.Get, MapStore.Set, MapStoreSmtValueStoreWrapper.Get,
      MapStoreSmtValueStoreWrapper.Set, SimpleMap.Get, SimpleMap.Set]
  · simp [MapStore.Set, MapStoreSmtValueStoreWrapper.Set, SimpleMap.Set, Finmap.insert_insert]
  · simp [MapStore.Set, MapStore.Delete, MapStoreSmtValueStoreWrapper.Set,
      MapStoreSmtValueStoreWrapper.Delete, hd]
  · simp [MapStore.Get, MapStore.Set, MapStore.Delete, MapStoreSmtValueStoreWrapper.Get,
      MapStoreSmtValueStoreWrapper.Set, MapStoreSmtValueStoreWrapper.Delete, hd, SimpleMap.Get]

/-! ## SimpleSmtValueStore -/

/-- C9. For every `SimpleSmtValueStore` and every `SimpleMap` holding the same
map, and every key and value: `Get`, `Set` and `Delete` return the same
results on both and leave both with the same map; and `NewSimpleSmtValueMap`
builds a store with the same, empty, map as `NewSimpleMap`. -/
theorem C9_simpleSmtValueStore_as_simpleMap (t : SimpleSmtValueStore) (s : SimpleMap)
    (h : t.m = s.m) (key value : ByteSlice) :
    ((t.Get key).1 = (s.Get key).1 ∧ (t.Get key).2.m = (s.Get key).2.m) ∧
    ((t.Set key value).1 = (s.Set key value).1 ∧
      (t.Set key value).2.m = (s.Set key value).2.m) ∧
    ((t.Delete key).1 = (s.Delete key).1 ∧ (t.Delete key).2.m = (s.Delete key).2.m) ∧
    (NewSimpleSmtValueMap.m = NewSimpleMap.m ∧ NewSimpleMap.m = ∅) := by
  obtain ⟨⟨tm⟩⟩ := t
  obtain ⟨sm⟩ := s
  simp only at h
  subst h
  exact ⟨⟨rfl, rfl⟩, ⟨rfl, rfl⟩, ⟨rfl, rfl⟩, rfl, rfl⟩

/-- Witness of C9 at the two stores after `Set("a", "1")` on the new stores,
asked for the key "a". -/
theorem C9_simpleSmtValueStore_as_simpleMap_witness :
    (NewSimpleSmtValueMap.Set (ByteSlice.bytes [97]) (ByteSlice.bytes [49])).2.m
      = (NewSimpleMap.Set (ByteSlice.bytes [97]) (ByteSlice.bytes [49])).2.m ∧
    ((NewSimpleSmtValueMap.Set (ByteSlice.bytes [97]) (ByteSlice.bytes [49])).2.Get
        (ByteSlice.bytes [97])).1
      = ((NewSimpleMap.Set (ByteSlice.bytes [97]) (ByteSlice.bytes [49])).2.Get
        (ByteSlice.bytes [97])).1 :=
  ⟨rfl, (C9_simpleSmtValueStore_as_simpleMap
    (NewSimpleSmtValueMap.Set (ByteSlice.bytes [97]) (ByteSlice.bytes [49])).2
    (NewSimpleMap.Set (ByteSlice.bytes [97]) (ByteSlice.bytes [49])).2 rfl
    (ByteSlice.bytes [97]) ByteSlice.nil).1.1⟩

/-- C10. For every `SimpleSmtValueStore` state and every key, root and value:
`GetForRoot` returns the nil slice and the error "not implemented GetForRoot"
and `SetForRoot` returns the error "not implemented SetForRoot", also right
after `Set(key, value)` has set the key, and also when the store is called
through the interface `SmtValueStore`. -/
theorem C10_simpleSmtValueStore_forRoot_not_implemented (s : SimpleSmtValueStore)
    (key smtRoot value : ByteSlice) :
    (s.GetForRoot key smtRoot).1
      = (ByteSlice.nil, some (GoError.errorf "not implemented GetForRoot")) ∧
    (s.SetForRoot key smtRoot value).1 = some (GoError.errorf "not implemented SetForRoot") ∧
    ((s.Set key value).2.GetForRoot key smtRoot).1
      = (ByteSlice.nil, some (GoError.errorf "not implemented GetForRoot")) ∧
    ((s.Set key value).2.SetForRoot key smtRoot value).1
      = some (GoError.errorf "not implemented SetForRoot") ∧
    (SmtValueStore.GetForRoot ⟨MapStore.simpleSmtValueStore s, rfl⟩ key smtRoot).1
      = (ByteSlice.nil, some (GoError.errorf "not implemented GetForRoot")) ∧
    (SmtValueStore.SetForRoot ⟨MapStore.simpleSmtValueStore s, rfl⟩ key smtRoot value).1
      = some (GoError.errorf "not implemented SetForRoot") :=
  ⟨rfl, rfl, rfl, rfl, rfl, rfl⟩

/-! ## Immutable and the root-qualified calls -/

/-- C11. `Immutable()` returns false for every `MapStoreSmtValueStoreWrapper`
and every `SimpleSmtValueStore`, whatever their state, also after a `Set` or a
`Delete` and also when called through the interface `SmtValueStore`, and it
leaves the store as it was; in particular
`NewSmtValueStore(NewSimpleMap()).Immutable()` is false. -/
theorem C11_immutable_false (w : MapStoreSmtValueStoreWrapper) (s : SimpleSmtValueStore)
    (key value : ByteSlice) :
    (w.Immutable = (false, w) ∧ s.Immutable = (false, s)) ∧
    ((w.Set key value).2.Immutable.1 = false ∧ (w.Delete key).2.Immutable.1 = false ∧
      (s.Set key value).2.Immutable.1 = false ∧ (s.Delete key).2.Immutable.1 = false) ∧
    ((SmtValueStore.Immutable ⟨MapStore.wrapper w, rfl⟩).1 = false ∧
      (SmtValueStore.Immutable ⟨MapStore.simpleSmtValueStore s, rfl⟩).1 = false) ∧
    (NewSmtValueStore (MapStore.simpleMap NewSimpleMap)).Immutable.1 = false := by
  refine ⟨⟨rfl, rfl⟩, ⟨rfl, rfl, rfl, rfl⟩, ⟨rfl, rfl⟩, ?_⟩
  rw [NewSmtValueStore_of_not_implements (MapStore.simpleMap NewSimpleMap) rfl]
  rfl

/-- C12. A root-qualified call changes nothing: for every wrapper, over a
`SimpleMap` or over any other store, and every `SimpleSmtValueStore`,
`GetForRoot(k, r)` and `SetForRoot(k, r, v)` leave the store in the state it
was in, so `Get(k2)` called next returns what it returned before for every key
`k2`; this holds as well for the wrapper that `NewSmtValueStore` makes of a
`SimpleMap`, called through the interface. -/
theorem C12_forRoot_leaves_store (m : MapStore) (sm : SimpleMap) (s : SimpleSmtValueStore)
    (k r v k2 : ByteSlice) :
    (((MapStoreSmtValueStoreWrapper.mk m).GetForRoot k r).2 = MapStoreSmtValueStoreWrapper.mk m ∧
      ((MapStoreSmtValueStoreWrapper.mk m).SetForRoot k r v).2
        = MapStoreSmtValueStoreWrapper.mk m) ∧
    (((MapStoreSmtValueStoreWrapper.mk m).GetForRoot k r).2.Get k2
        = (MapStoreSmtValueStoreWrapper.mk m).Get k2 ∧
      ((MapStoreSmtValueStoreWrapper.mk m).SetForRoot k r v).2.Get k2
        = (MapStoreSmtValueStoreWrapper.mk m).Get k2) ∧
    ((s.GetForRoot k r).2 = s ∧ (s.SetForRoot k r v).2 = s ∧
      ((s.GetForRoot k r).2.Get k2).1 = (s.Get k2).1 ∧
      ((s.SetForRoot k r v).2.Get k2).1 = (s.Get k2).1) ∧
    (((NewSmtValueStore (MapStore.simpleMap sm)).GetForRoot k r).2
        = NewSmtValueStore (MapStore.simpleMap sm) ∧
      ((NewSmtValueStore (MapStore.simpleMap sm)).SetForRoot k r v).2
        = NewSmtValueStore (MapStore.simpleMap sm) ∧
      (((NewSmtValueStore (MapStore.simpleMap sm)).SetForRoot k r v).2.store.Get k2).1
        = (sm.Get k2).1 ∧
      (((NewSmtValueStore (MapStore.simpleMap sm)).GetForRoot k r).2.store.Get k2).1
        = (sm.Get k2).1) := by
  refine ⟨⟨rfl, rfl⟩, ⟨rfl, rfl⟩, ⟨rfl, rfl, rfl, rfl⟩, ?_⟩
  rw [NewSmtValueStore_of_not_implements (MapStore.simpleMap sm) rfl]
  exact ⟨rfl, rfl, rfl, rfl⟩

/-! ## SimpleMap: empty values, frame and atomicity -/

/-- C13. For every `SimpleMap` state and key `k`, after `Set(k, v)` with `v`
of length zero (the nil slice or the empty slice), `Get(k)` returns no error
and a value of length zero, namely `v`, and `Delete(k)` returns no error; and
whenever `Get` or `Delete` returns an `InvalidKeyError`, the string of the key
has no entry in the map. -/
theorem C13_empty_value_is_present (s : SimpleMap) (k v : ByteSlice) (hv : v.len = 0) :
    ((s.Set k v).2.Get k).1.2 = none ∧
    ((s.Set k v).2.Get k).1.1.len = 0 ∧
    ((s.Set k v).2.Get k).1.1 = v ∧
    ((s.Set k v).2.Delete k).1 = none ∧
    (∀ (s2 : SimpleMap) (k2 : ByteSlice) (e : InvalidKeyError),
      ((s2.Get k2).1.2 = some (GoError.invalidKey e) → k2.string ∉ s2.m) ∧
      ((s2.Delete k2).1 = some (GoError.invalidKey e) → k2.string ∉ s2.m)) := by
  have hg : (s.Set k v).2.Get k = ((v, none), (s.Set k v).2) :=
    SimpleMap.Get_of_lookup_some _ k v (by simp [SimpleMap.Set])
  have hd : (s.Set k v).2.Delete k = (none, { m := (s.m.insert k.string v).erase k.string }) :=
    SimpleMap.Delete_of_lookup_some _ k v (by simp [SimpleMap.Set])
  refine ⟨by rw [hg], by rw [hg]; exact hv, by rw [hg], by rw [hd], ?_⟩
  intro s2 k2 e
  rw [← Finmap.lookup_eq_none]
  cases h : s2.m.lookup k2.string with
  | none => simp
  | some value => simp [SimpleMap.Get, SimpleMap.Delete, h]

/-- Witness of C13 on the new store with the key "a" and the empty, non-nil
slice as value. -/
theorem C13_empty_value_is_present_witness :
    (ByteSlice.bytes []).len = 0 ∧
    ((NewSimpleMap.Set (ByteSlice.bytes [97]) (ByteSlice.bytes [])).2.Get
      (ByteSlice.bytes [97])).1.2 = none :=
  ⟨rfl, (C13_empty_value_is_present NewSimpleMap (ByteSlice.bytes [97]) (ByteSlice.bytes [])
    rfl).1⟩

/-- C14. `Get` has no side effects: for every `SimpleMap` state `s` and key
`k`, the state after `Get(k)` is `s`, whether the call returned a value or an
error, so a `Get` or `Delete` called next on any key returns, and does, what
it would on `s`. -/
theorem C14_get_no_side_effect (s : SimpleMap) (k k2 : ByteSlice) :
    (s.Get k).2 = s ∧
    (s.Get k).2.m = s.m ∧
    (s.Get k).2.Get k2 = s.Get k2 ∧
    (s.Get k).2.Delete k2 = s.Delete k2 := by
  have h : (s.Get k).2 = s := by
    cases hl : s.m.lookup k.string with
    | none => simp [SimpleMap.Get, hl]
    | some value => simp [SimpleMap.Get, hl]
  exact ⟨h, by rw [h], by rw [h], by rw [h]⟩

/-- C15. For every `SimpleMap` and `SimpleSmtValueStore` state, every key and
every value, `Set` returns no error; the nil and the empty key and value are
among them. -/
theorem C15_set_returns_no_error (s : SimpleMap) (t : SimpleSmtValueStore)
    (k v : ByteSlice) :
    (s.Set k v).1 = none ∧ (t.Set k v).1 = none ∧
    (s.Set (ByteSlice.bytes []) (ByteSlice.bytes [])).1 = none ∧
    (s.Set ByteSlice.nil ByteSlice.nil).1 = none ∧
    (t.Set (ByteSlice.bytes []) (ByteSlice.bytes [])).1 = none ∧
    (t.Set ByteSlice.nil ByteSlice.nil).1 = none :=
  ⟨rfl, rfl, rfl, rfl, rfl, rfl⟩

/-- C16. `Set` touches only its own key: for every `SimpleMap` state `s`,
keys `k` and `k2` whose bytes differ and value `v`, `Get(k2)` after
`Set(k, v)` returns the results of `Get(k2)` on `s`, the same value or the
same `InvalidKeyError{Key: k2}`; and a key `k3` with the bytes of `k` is the
key `k`: `Get(k3)` after `Set(k, v)` returns `v`. -/
theorem C16_set_frame (s : SimpleMap) (k k2 v : ByteSlice) (hne : k.string ≠ k2.string) :
    ((s.Set k v).2.Get k2).1 = (s.Get k2).1 ∧
    (k2.string ∉ s.m →
      ((s.Set k v).2.Get k2).1 = (ByteSlice.nil, some (GoError.invalidKey { Key := k2 }))) ∧
    (∀ k3 : ByteSlice, k3.string = k.string → ((s.Set k v).2.Get k3).1 = (v, none)) := by
  have hl : (s.Set k v).2.m.lookup k2.string = s.m.lookup k2.string := by
    rw [SimpleMap.Set_m]
    exact Finmap.lookup_insert_of_ne s.m (Ne.symm hne)
  have hget : ((s.Set k v).2.Get k2).1 = (s.Get k2).1 := by
    cases h : s.m.lookup k2.string with
    | none =>
      rw [SimpleMap.Get_of_lookup_none s k2 h,
        SimpleMap.Get_of_lookup_none (s.Set k v).2 k2 (hl.trans h)]
    | some value =>
      rw [SimpleMap.Get_of_lookup_some s k2 value h,
        SimpleMap.Get_of_lookup_some (s.Set k v).2 k2 value (hl.trans h)]
  refine ⟨hget, ?_, ?_⟩
  · intro habsent
    rw [hget, SimpleMap.Get_of_lookup_none s k2 (Finmap.lookup_eq_none.mpr habsent)]
  · intro k3 h3
    rw [SimpleMap.Get_of_lookup_some (s.Set k v).2 k3 v]
    rw [SimpleMap.Set_m, h3]
    exact Finmap.lookup_insert s.m

/-- Witness of C16 on the store holding "b": after `Set("a", "1")`, `Get("b")`
returns what it returned before. -/
theorem C16_set_frame_witness :
    (ByteSlice.bytes [97]).string ≠ (ByteSlice.bytes [98]).string ∧
    (((NewSimpleMap.Set (ByteSlice.bytes [98]) (ByteSlice.bytes [50])).2.Set
        (ByteSlice.bytes [97]) (ByteSlice.bytes [49])).2.Get (ByteSlice.bytes [98])).1
      = ((NewSimpleMap.Set (ByteSlice.bytes [98]) (ByteSlice.bytes [50])).2.Get
        (ByteSlice.bytes [98])).1 :=
  ⟨by decide, (C16_set_frame (NewSimpleMap.Set (ByteSlice.bytes [98]) (ByteSlice.bytes [50])).2
    (ByteSlice.bytes [97]) (ByteSlice.bytes [98]) (ByteSlice.bytes [49]) (by decide)).1⟩

/-- C17. `Delete` touches only its own key: for every `SimpleMap` state `s`
in which `k` is mapped and every key `k2` whose bytes differ from those of
`k`, `Delete(k)` returns no error and `Get(k2)` called next returns the
results of `Get(k2)` on `s`. -/
theorem C17_delete_frame (s : SimpleMap) (k k2 : ByteSlice) (hk : k.string ∈ s.m)
    (hne : k.string ≠ k2.string) :
    (s.Delete k).1 = none ∧ ((s.Delete k).2.Get k2).1 = (s.Get k2).1 := by
  obtain ⟨value, hv⟩ := Option.isSome_iff_exists.mp (Finmap.lookup_isSome.mpr hk)
  rw [SimpleMap.Delete_of_lookup_some s k value hv]
  refine ⟨rfl, ?_⟩
  have hl : (s.m.erase k.string).lookup k2.string = s.m.lookup k2.string :=
    Finmap.lookup_erase_ne (Ne.symm hne)
  cases h : s.m.lookup k2.string with
  | none =>
    rw [SimpleMap.Get_of_lookup_none s k2 h,
      SimpleMap.Get_of_lookup_none { m := s.m.erase k.string } k2 (hl.trans h)]
  | some value2 =>
    rw [SimpleMap.Get_of_lookup_some s k2 value2 h,
      SimpleMap.Get_of_lookup_some { m := s.m.erase k.string } k2 value2 (hl.trans h)]

/-- Witness of C17 on the store holding "a" and "b": `Delete("a")` leaves
`Get("b")` as it was. -/
theorem C17_delete_frame_witness :
    (ByteSlice.bytes [97]).string
        ∈ ((NewSimpleMap.Set (ByteSlice.bytes [98]) (ByteSlice.bytes [50])).2.Set
          (ByteSlice.bytes [97]) (ByteSlice.bytes [49])).2.m ∧
    ((((NewSimpleMap.Set (ByteSlice.bytes [98]) (ByteSlice.bytes [50])).2.Set
        (ByteSlice.bytes [97]) (ByteSlice.bytes [49])).2.Delete (ByteSlice.bytes [97])).2.Get
        (ByteSlice.bytes [98])).1
      = (((NewSimpleMap.Set (ByteSlice.bytes [98]) (ByteSlice.bytes [50])).2.Set
        (ByteSlice.bytes [97]) (ByteSlice.bytes [49])).2.Get (ByteSlice.bytes [98])).1 :=
  have hmem : (ByteSlice.bytes [97]).string
      ∈ ((NewSimpleMap.Set (ByteSlice.bytes [98]) (ByteSlice.bytes [50])).2.Set
        (ByteSlice.bytes [97]) (ByteSlice.bytes [49])).2.m := by
    simp [SimpleMap.Set, ByteSlice.string]
  ⟨hmem, (C17_delete_frame _ (ByteSlice.bytes [97]) (ByteSlice.bytes [98]) hmem
    (by decide)).2⟩

/-- C18. A failed `Delete` changes nothing: for every `SimpleMap` state `s`
and key `k` with no entry in `s`, `Delete(k)` returns `InvalidKeyError{Key: k}`
and the state after the call is `s`. -/
theorem C18_failed_delete_atomic (s : SimpleMap) (k : ByteSlice) (hk : k.string ∉ s.m) :
    (s.Delete k).1 = some (GoError.invalidKey { Key := k }) ∧
    (s.Delete k).2 = s ∧ (s.Delete k).2.m = s.m := by
  rw [SimpleMap.Delete_of_lookup_none s k (Finmap.lookup_eq_none.mpr hk)]
  exact ⟨rfl, rfl, rfl⟩

/-- Witness of C18 on the store holding only "a", asked to delete "b". -/
theorem C18_failed_delete_atomic_witness :
    (ByteSlice.bytes [98]).string
        ∉ (NewSimpleMap.Set (ByteSlice.bytes [97]) (ByteSlice.bytes [49])).2.m ∧
    ((NewSimpleMap.Set (ByteSlice.bytes [97]) (ByteSlice.bytes [49])).2.Delete
        (ByteSlice.bytes [98])).2
      = (NewSimpleMap.Set (ByteSlice.bytes [97]) (ByteSlice.bytes [49])).2 :=
  have habsent : (ByteSlice.bytes [98]).string
      ∉ (NewSimpleMap.Set (ByteSlice.bytes [97]) (ByteSlice.bytes [49])).2.m := by
    simp [SimpleMap.Set, NewSimpleMap, ByteSlice.string, Finmap.not_mem_empty]
  ⟨habsent, (C18_failed_delete_atomic _ (ByteSlice.bytes [98]) habsent).2.1⟩

/-! ## NewSmtValueStore is idempotent -/

/-- C19. For every store `m`, `NewSmtValueStore(NewSmtValueStore(m))` is
`NewSmtValueStore(m)`: the type of the first result implements
`SmtValueStore`, as the type of every wrapper does, so the second call
returns its argument and makes no wrapper of it. -/
theorem C19_new_idempotent (m : MapStore) (w : MapStoreSmtValueStoreWrapper) :
    NewSmtValueStore (NewSmtValueStore m).store = NewSmtValueStore m ∧
    (NewSmtValueStore m).store.implementsSmtValueStore = true ∧
    (MapStore.wrapper w).implementsSmtValueStore = true ∧
    (NewSmtValueStore (MapStore.wrapper w)).store = MapStore.wrapper w ∧
    (NewSmtValueStore (NewSmtValueStore m).store).store
      ≠ MapStore.wrapper (MapStoreSmtValueStoreWrapper.mk (NewSmtValueStore m).store) := by
  have himpl : (NewSmtValueStore m).store.implementsSmtValueStore = true := (NewSmtValueStore m).2
  have hidem : NewSmtValueStore (NewSmtValueStore m).store = NewSmtValueStore m := by
    rw [NewSmtValueStore_of_implements (NewSmtValueStore m).store himpl]
    rfl
  refine ⟨hidem, himpl, rfl, ?_, ?_⟩
  · rw [NewSmtValueStore_of_implements (MapStore.wrapper w) rfl]; rfl
  · rw [hidem]
    intro heq
    have hsz := congrArg sizeOf heq
    simp only [MapStore.wrapper.sizeOf_spec, MapStoreSmtValueStoreWrapper.mk.sizeOf_spec] at hsz
    omega

end Smt
